import Mathlib

/-!
Verification development for the WhatsApp conversation segmentation and
retrieval-document construction pipeline (`teste.py`, `rag.py`, `app.py`).

The Python source is shallowly embedded: each relevant Python function is
translated into an executable Lean definition over `List Char` / `String` /
`Nat` / `Int`, machine behaviour (string methods, `re` patterns,
`datetime.strptime`) is modelled explicitly, and the claimed properties are
proved about these definitions.
-/

/-! ## Python string primitives -/

/-- The ASCII whitespace characters recognised by Python's `str.strip()` and
by the regex class `\s` (the transcripts in scope contain no exotic Unicode
whitespace, so the ASCII subset is the faithful model here). -/
def isPyWs (c : Char) : Bool :=
  c = ' ' || c = '\t' || c = '\n' || c = '\r' || c = '\x0b' || c = '\x0c'

/-- The `str.strip()` on a character list: drop whitespace from both ends. -/
def pyStrip (cs : List Char) : List Char :=
  ((cs.dropWhile isPyWs).reverse.dropWhile isPyWs).reverse

/-- The `str.strip()` on a `String`. -/
def pyStripStr (s : String) : String :=
  String.mk (pyStrip s.toList)

/-- The `str.lower()` restricted to the alphabet actually appearing in the
pipeline: ASCII letters and the Latin-1 accented letters used by the
Portuguese phrase lists (`À`..`Þ` map to `à`..`þ`, `×` excluded). -/
def pyLower (c : Char) : Char :=
  if 'A' ≤ c ∧ c ≤ 'Z' then Char.ofNat (c.toNat + 32)
  else if 0xC0 ≤ c.toNat ∧ c.toNat ≤ 0xDE ∧ c.toNat ≠ 0xD7 then Char.ofNat (c.toNat + 32)
  else c

/-- The regex class `\w` restricted to the alphabet in scope: ASCII
alphanumerics, underscore, and Latin-1 accented letters. -/
def isWordChar (c : Char) : Bool :=
  c.isAlphanum || c = '_' ||
    (0xC0 ≤ c.toNat && c.toNat ≤ 0xFF && c.toNat ≠ 0xD7 && c.toNat ≠ 0xF7)

/-- Decimal digit value of an ASCII digit, `none` otherwise (regex `\d`). -/
def digit? (c : Char) : Option Nat :=
  if '0' ≤ c ∧ c ≤ '9' then some (c.toNat - 48) else none

/-! ## `datetime` model

`parse_timestamp` (teste.py, lines 41-80) produces Python `datetime` values.
A `datetime` is modelled by its seven fields; subtraction of two datetimes is
modelled exactly by the difference of their microsecond offsets from the
proleptic-Gregorian day 0001-01-01 (`toUs`). -/

structure DateTime where
  year : Nat
  month : Nat
  day : Nat
  hour : Nat
  minute : Nat
  second : Nat
  usec : Nat
deriving DecidableEq, Repr

def isLeapYear (y : Nat) : Bool :=
  (y % 4 == 0 && y % 100 != 0) || y % 400 == 0

/-- Days in the months strictly before month `m` (1-based) in a non-leap year. -/
def daysBeforeMonth (m : Nat) : Nat :=
  [0, 31, 59, 90, 120, 151, 181, 212, 243, 273, 304, 334].getD (m - 1) 0

def monthLength (y m : Nat) : Nat :=
  if m = 2 then (if isLeapYear y then 29 else 28)
  else [31, 28, 31, 30, 31, 30, 31, 31, 30, 31, 30, 31].getD (m - 1) 0

/-- Day count of a valid Gregorian date from 0001-01-01 (= day 0); this is
`datetime.toordinal() - 1`. -/
def dayNumber (dt : DateTime) : Nat :=
  365 * (dt.year - 1) + (dt.year - 1) / 4 + (dt.year - 1) / 400
    + (daysBeforeMonth dt.month
        + (if 2 < dt.month && isLeapYear dt.year then 1 else 0) + (dt.day - 1))
    - (dt.year - 1) / 100

/-- Microseconds from 0001-01-01 00:00:00.000000; the difference of two
`toUs` values is exactly Python's `(a - b).total_seconds() * 10^6`. -/
def toUs (dt : DateTime) : Nat :=
  (((dayNumber dt * 24 + dt.hour) * 60 + dt.minute) * 60 + dt.second) * 1000000 + dt.usec

/-- Raw fields captured by one `strptime` pattern match, before the
`datetime(...)` constructor validates them. -/
structure StrpFields where
  y : Nat
  m : Nat
  d : Nat
  hh : Nat
  mm : Nat
  ss : Nat
  us : Nat
deriving DecidableEq, Repr

/-- The `datetime(year, month, day, hour, minute, second, microsecond)`
constructor: `none` models the `ValueError` that `parse_timestamp` catches. -/
def strpValidate (f : StrpFields) : Option DateTime :=
  if 1 ≤ f.y ∧ f.y ≤ 9999 ∧ 1 ≤ f.m ∧ f.m ≤ 12 ∧ 1 ≤ f.d ∧ f.d ≤ monthLength f.y f.m
      ∧ f.hh ≤ 23 ∧ f.mm ≤ 59 ∧ f.ss ≤ 59 ∧ f.us ≤ 999999
  then some ⟨f.y, f.m, f.d, f.hh, f.mm, f.ss, f.us⟩ else none

/-! ## `strptime` pattern matching

CPython's `_strptime` compiles each format string to a regex; a directive
becomes an alternation tried left to right with backtracking (e.g. `%d`
becomes `3[01]|[12]\d|0[1-9]|[1-9]`), a literal space becomes `\s+`, other
characters are matched literally, and the match must consume the whole
(stripped) input.  Each field parser below returns the list of possible
(value, rest) outcomes in regex priority order; a format parser chains them
with `List.findSome?`, which picks exactly the backtracking-first full match. -/

def pDay (cs : List Char) : List (Nat × List Char) :=
  [ (match cs with
     | '3' :: c :: rest => (digit? c).bind fun v => if v ≤ 1 then some (30 + v, rest) else none
     | _ => none),
    (match cs with
     | c1 :: c2 :: rest =>
       (digit? c1).bind fun v1 => (digit? c2).bind fun v2 =>
         if 1 ≤ v1 ∧ v1 ≤ 2 then some (10 * v1 + v2, rest) else none
     | _ => none),
    (match cs with
     | '0' :: c :: rest => (digit? c).bind fun v => if 1 ≤ v then some (v, rest) else none
     | _ => none),
    (match cs with
     | c :: rest => (digit? c).bind fun v => if 1 ≤ v then some (v, rest) else none
     | _ => none) ].reduceOption

def pMonth (cs : List Char) : List (Nat × List Char) :=
  [ (match cs with
     | '1' :: c :: rest => (digit? c).bind fun v => if v ≤ 2 then some (10 + v, rest) else none
     | _ => none),
    (match cs with
     | '0' :: c :: rest => (digit? c).bind fun v => if 1 ≤ v then some (v, rest) else none
     | _ => none),
    (match cs with
     | c :: rest => (digit? c).bind fun v => if 1 ≤ v then some (v, rest) else none
     | _ => none) ].reduceOption

def pHour (cs : List Char) : List (Nat × List Char) :=
  [ (match cs with
     | '2' :: c :: rest => (digit? c).bind fun v => if v ≤ 3 then some (20 + v, rest) else none
     | _ => none),
    (match cs with
     | c1 :: c2 :: rest =>
       (digit? c1).bind fun v1 => (digit? c2).bind fun v2 =>
         if v1 ≤ 1 then some (10 * v1 + v2, rest) else none
     | _ => none),
    (match cs with
     | c :: rest => (digit? c).bind fun v => some (v, rest)
     | _ => none) ].reduceOption

def pMinute (cs : List Char) : List (Nat × List Char) :=
  [ (match cs with
     | c1 :: c2 :: rest =>
       (digit? c1).bind fun v1 => (digit? c2).bind fun v2 =>
         if v1 ≤ 5 then some (10 * v1 + v2, rest) else none
     | _ => none),
    (match cs with
     | c :: rest => (digit? c).bind fun v => some (v, rest)
     | _ => none) ].reduceOption

def pSecond (cs : List Char) : List (Nat × List Char) :=
  [ (match cs with
     | '6' :: c :: rest => (digit? c).bind fun v => if v ≤ 1 then some (60 + v, rest) else none
     | _ => none),
    (match cs with
     | c1 :: c2 :: rest =>
       (digit? c1).bind fun v1 => (digit? c2).bind fun v2 =>
         if v1 ≤ 5 then some (10 * v1 + v2, rest) else none
     | _ => none),
    (match cs with
     | c :: rest => (digit? c).bind fun v => some (v, rest)
     | _ => none) ].reduceOption

/-- The `%Y`: exactly four digits. -/
def pY4 (cs : List Char) : Option (Nat × List Char) :=
  match cs with
  | a :: b :: c :: d :: rest =>
    (digit? a).bind fun va => (digit? b).bind fun vb =>
    (digit? c).bind fun vc => (digit? d).bind fun vd =>
      some (((va * 10 + vb) * 10 + vc) * 10 + vd, rest)
  | _ => none

/-- The `%y`: exactly two digits (pivot applied by the caller). -/
def pY2 (cs : List Char) : Option (Nat × List Char) :=
  match cs with
  | a :: b :: rest =>
    (digit? a).bind fun va => (digit? b).bind fun vb => some (va * 10 + vb, rest)
  | _ => none

/-- The `%f`: one to six digits, greedy; the value is right-padded to
microseconds (`int(s + '0'*(6-len(s)))`). -/
def pFrac (cs : List Char) : List (Nat × List Char) :=
  let k := min ((cs.takeWhile (fun c => (digit? c).isSome)).length) 6
  (List.range k).map (fun i =>
    let len := k - i
    (((cs.take len).foldl (fun a c => a * 10 + ((digit? c).getD 0)) 0) * 10 ^ (6 - len),
      cs.drop len))

/-- A literal character of the format string. -/
def pLit (c : Char) (cs : List Char) : Option (List Char) :=
  match cs with
  | c' :: rest => if c' = c then some rest else none
  | [] => none

/-- A literal space in the format string becomes `\s+` (greedy, with
backtracking alternatives from longest to shortest run). -/
def pWsRun (cs : List Char) : List (Unit × List Char) :=
  let n := (cs.takeWhile isPyWs).length
  (List.range n).map (fun i => ((), cs.drop (n - i)))

/-- The `'%d/%m/%Y, %H:%M'` -/
def fmt1 (cs : List Char) : Option StrpFields :=
  (pDay cs).findSome? fun (d, cs) =>
  (pLit '/' cs).bind fun cs =>
  (pMonth cs).findSome? fun (m, cs) =>
  (pLit '/' cs).bind fun cs =>
  (pY4 cs).bind fun (y, cs) =>
  (pLit ',' cs).bind fun cs =>
  (pWsRun cs).findSome? fun (_, cs) =>
  (pHour cs).findSome? fun (hh, cs) =>
  (pLit ':' cs).bind fun cs =>
  (pMinute cs).findSome? fun (mm, cs) =>
  if cs = [] then some ⟨y, m, d, hh, mm, 0, 0⟩ else none

/-- The `'%d/%m/%y, %H:%M'`; `strptime` maps two-digit years `00`-`68` to
`2000`-`2068` and `69`-`99` to `1969`-`1999`. -/
def fmt2 (cs : List Char) : Option StrpFields :=
  (pDay cs).findSome? fun (d, cs) =>
  (pLit '/' cs).bind fun cs =>
  (pMonth cs).findSome? fun (m, cs) =>
  (pLit '/' cs).bind fun cs =>
  (pY2 cs).bind fun (y, cs) =>
  (pLit ',' cs).bind fun cs =>
  (pWsRun cs).findSome? fun (_, cs) =>
  (pHour cs).findSome? fun (hh, cs) =>
  (pLit ':' cs).bind fun cs =>
  (pMinute cs).findSome? fun (mm, cs) =>
  if cs = [] then some ⟨(if y ≤ 68 then y + 2000 else y + 1900), m, d, hh, mm, 0, 0⟩ else none

/-- The `'%m/%d/%Y, %H:%M'` -/
def fmt3 (cs : List Char) : Option StrpFields :=
  (pMonth cs).findSome? fun (m, cs) =>
  (pLit '/' cs).bind fun cs =>
  (pDay cs).findSome? fun (d, cs) =>
  (pLit '/' cs).bind fun cs =>
  (pY4 cs).bind fun (y, cs) =>
  (pLit ',' cs).bind fun cs =>
  (pWsRun cs).findSome? fun (_, cs) =>
  (pHour cs).findSome? fun (hh, cs) =>
  (pLit ':' cs).bind fun cs =>
  (pMinute cs).findSome? fun (mm, cs) =>
  if cs = [] then some ⟨y, m, d, hh, mm, 0, 0⟩ else none

/-- The `'%Y-%m-%d %H:%M:%S'` -/
def fmt4 (cs : List Char) : Option StrpFields :=
  (pY4 cs).bind fun (y, cs) =>
  (pLit '-' cs).bind fun cs =>
  (pMonth cs).findSome? fun (m, cs) =>
  (pLit '-' cs).bind fun cs =>
  (pDay cs).findSome? fun (d, cs) =>
  (pWsRun cs).findSome? fun (_, cs) =>
  (pHour cs).findSome? fun (hh, cs) =>
  (pLit ':' cs).bind fun cs =>
  (pMinute cs).findSome? fun (mm, cs) =>
  (pLit ':' cs).bind fun cs =>
  (pSecond cs).findSome? fun (ss, cs) =>
  if cs = [] then some ⟨y, m, d, hh, mm, ss, 0⟩ else none

/-- The `'%d-%m-%Y %H:%M'` -/
def fmt5 (cs : List Char) : Option StrpFields :=
  (pDay cs).findSome? fun (d, cs) =>
  (pLit '-' cs).bind fun cs =>
  (pMonth cs).findSome? fun (m, cs) =>
  (pLit '-' cs).bind fun cs =>
  (pY4 cs).bind fun (y, cs) =>
  (pWsRun cs).findSome? fun (_, cs) =>
  (pHour cs).findSome? fun (hh, cs) =>
  (pLit ':' cs).bind fun cs =>
  (pMinute cs).findSome? fun (mm, cs) =>
  if cs = [] then some ⟨y, m, d, hh, mm, 0, 0⟩ else none

/-- The `'%d/%m/%Y %H:%M:%S'` -/
def fmt6 (cs : List Char) : Option StrpFields :=
  (pDay cs).findSome? fun (d, cs) =>
  (pLit '/' cs).bind fun cs =>
  (pMonth cs).findSome? fun (m, cs) =>
  (pLit '/' cs).bind fun cs =>
  (pY4 cs).bind fun (y, cs) =>
  (pWsRun cs).findSome? fun (_, cs) =>
  (pHour cs).findSome? fun (hh, cs) =>
  (pLit ':' cs).bind fun cs =>
  (pMinute cs).findSome? fun (mm, cs) =>
  (pLit ':' cs).bind fun cs =>
  (pSecond cs).findSome? fun (ss, cs) =>
  if cs = [] then some ⟨y, m, d, hh, mm, ss, 0⟩ else none

/-- The `'%Y-%m-%dT%H:%M:%S'` -/
def fmt7 (cs : List Char) : Option StrpFields :=
  (pY4 cs).bind fun (y, cs) =>
  (pLit '-' cs).bind fun cs =>
  (pMonth cs).findSome? fun (m, cs) =>
  (pLit '-' cs).bind fun cs =>
  (pDay cs).findSome? fun (d, cs) =>
  (pLit 'T' cs).bind fun cs =>
  (pHour cs).findSome? fun (hh, cs) =>
  (pLit ':' cs).bind fun cs =>
  (pMinute cs).findSome? fun (mm, cs) =>
  (pLit ':' cs).bind fun cs =>
  (pSecond cs).findSome? fun (ss, cs) =>
  if cs = [] then some ⟨y, m, d, hh, mm, ss, 0⟩ else none

/-- The `'%Y-%m-%dT%H:%M:%S.%f'` -/
def fmt8 (cs : List Char) : Option StrpFields :=
  (pY4 cs).bind fun (y, cs) =>
  (pLit '-' cs).bind fun cs =>
  (pMonth cs).findSome? fun (m, cs) =>
  (pLit '-' cs).bind fun cs =>
  (pDay cs).findSome? fun (d, cs) =>
  (pLit 'T' cs).bind fun cs =>
  (pHour cs).findSome? fun (hh, cs) =>
  (pLit ':' cs).bind fun cs =>
  (pMinute cs).findSome? fun (mm, cs) =>
  (pLit ':' cs).bind fun cs =>
  (pSecond cs).findSome? fun (ss, cs) =>
  (pLit '.' cs).bind fun cs =>
  (pFrac cs).findSome? fun (us, cs) =>
  if cs = [] then some ⟨y, m, d, hh, mm, ss, us⟩ else none

/-- The ordered format list of `parse_timestamp`: each format is tried in
turn, and a `ValueError` from `datetime(...)` falls through to the next. -/
def tryFormats (cs : List Char) : Option DateTime :=
  ((fmt1 cs).bind strpValidate) <|> ((fmt2 cs).bind strpValidate) <|>
  ((fmt3 cs).bind strpValidate) <|> ((fmt4 cs).bind strpValidate) <|>
  ((fmt5 cs).bind strpValidate) <|> ((fmt6 cs).bind strpValidate) <|>
  ((fmt7 cs).bind strpValidate) <|> ((fmt8 cs).bind strpValidate)

/-! ## The fallback regex extraction

`re.search(r'(\d{1,2})[/\-](\d{1,2})[/\-](\d{2,4})', s)` and
`re.search(r'(\d{1,2}):(\d{2})', s)`: leftmost match, greedy groups. -/

/-- The `\d{1,2}`, greedy: two digits preferred over one. -/
def pD12 (cs : List Char) : List (Nat × List Char) :=
  [ (match cs with
     | c1 :: c2 :: rest =>
       (digit? c1).bind fun v1 => (digit? c2).bind fun v2 => some (10 * v1 + v2, rest)
     | _ => none),
    (match cs with
     | c :: rest => (digit? c).bind fun v => some (v, rest)
     | _ => none) ].reduceOption

/-- The `\d{2,4}`, greedy: four digits preferred, then three, then two. -/
def pD24 (cs : List Char) : List (Nat × List Char) :=
  [ (match cs with
     | a :: b :: c :: d :: rest =>
       (digit? a).bind fun va => (digit? b).bind fun vb =>
       (digit? c).bind fun vc => (digit? d).bind fun vd =>
         some (((va * 10 + vb) * 10 + vc) * 10 + vd, rest)
     | _ => none),
    (match cs with
     | a :: b :: c :: rest =>
       (digit? a).bind fun va => (digit? b).bind fun vb => (digit? c).bind fun vc =>
         some ((va * 10 + vb) * 10 + vc, rest)
     | _ => none),
    (match cs with
     | a :: b :: rest =>
       (digit? a).bind fun va => (digit? b).bind fun vb => some (va * 10 + vb, rest)
     | _ => none) ].reduceOption

/-- The `[/\-]` -/
def pSep (cs : List Char) : Option (List Char) :=
  match cs with
  | '/' :: rest => some rest
  | '-' :: rest => some rest
  | _ => none

/-- One attempt of the date pattern anchored at the current position. -/
def dateMatchHere (cs : List Char) : Option (Nat × Nat × Nat) :=
  (pD12 cs).findSome? fun (d, cs) =>
  (pSep cs).bind fun cs =>
  (pD12 cs).findSome? fun (m, cs) =>
  (pSep cs).bind fun cs =>
  (pD24 cs).findSome? fun (y, _) => some (d, m, y)

/-- The `re.search` for the date pattern: leftmost matching position wins. -/
def dateSearch : List Char → Option (Nat × Nat × Nat)
  | [] => none
  | c :: rest =>
    match dateMatchHere (c :: rest) with
    | some r => some r
    | none => dateSearch rest

/-- One attempt of the time pattern (`(\d{1,2}):(\d{2})`) anchored here. -/
def timeMatchHere (cs : List Char) : Option (Nat × Nat) :=
  (pD12 cs).findSome? fun (hh, cs) =>
  (pLit ':' cs).bind fun cs =>
  match cs with
  | a :: b :: _ =>
    (digit? a).bind fun va => (digit? b).bind fun vb => some (hh, 10 * va + vb)
  | _ => none

/-- The `re.search` for the time pattern. -/
def timeSearch : List Char → Option (Nat × Nat)
  | [] => none
  | c :: rest =>
    match timeMatchHere (c :: rest) with
    | some r => some r
    | none => timeSearch rest

/-- The fallback reconstruction `datetime(year, month, day, hour, minute)`
after `if year < 100: year += 2000` (teste.py, lines 70-76). -/
def fallback_from_match (d m y hh mm : Nat) : Option DateTime :=
  strpValidate ⟨(if y < 100 then y + 2000 else y), m, d, hh, mm, 0, 0⟩

/-- The `WhatsAppProcessor.parse_timestamp` (teste.py, lines 41-80): try the
eight known formats on the stripped string; on failure, search the raw
string for date-like and time-like substrings and reconstruct; on any
remaining failure return `none` (never an error). -/
def parse_timestamp (timestamp_str : String) : Option DateTime :=
  if timestamp_str = "" then none
  else
    match tryFormats (pyStrip timestamp_str.toList) with
    | some dt => some dt
    | none =>
      match dateSearch timestamp_str.toList, timeSearch timestamp_str.toList with
      | some (d, m, y), some (hh, mm) => fallback_from_match d m y hh mm
      | _, _ => none

/-! ## Messages -/

/-- A normalized message record as consumed by the segmentation functions
(the fields of the dicts built in `create_whatsapp_database`, restricted to
those the algorithms read). -/
structure Msg where
  author : String
  message : String
  timestamp : String
deriving DecidableEq, Repr

/-! ## Boundary detector (conservative mode)

`WhatsAppProcessor.detect_conversation_boundaries_conservative`
(teste.py, lines 108-160), as an explicit fold over the message stream. -/

/-- The loop state: emitted conversations plus the accumulator being built. -/
structure DetState where
  convs : List (List Msg)
  cur : List Msg
deriving DecidableEq, Repr

/-- The split decision for an incoming message `m` against the accumulator
`cur` (teste.py, lines 126-147): a temporal gap of more than 24 hours
between both parsed times, an accumulator of more than 100 messages, or more
than 2 distinct authors among the last 20 accumulated messages with `m`'s
author not among them. -/
def shouldSplit (cur : List Msg) (m : Msg) : Bool :=
  let timeSplit :=
    match cur.getLast? with
    | none => false
    | some last_msg =>
      match parse_timestamp m.timestamp, parse_timestamp last_msg.timestamp with
      | some current_time, some last_time =>
        decide ((86400000000 : Int) < (toUs current_time : Int) - (toUs last_time : Int))
      | _, _ => false
  let sizeSplit := decide (100 < cur.length)
  let recent_authors := (cur.drop (cur.length - 20)).map Msg.author
  let authorSplit :=
    decide (2 < recent_authors.dedup.length) && !(decide (m.author ∈ recent_authors))
  timeSplit || sizeSplit || authorSplit

/-- One iteration of the detector loop (teste.py, lines 118-153). -/
def detStep (s : DetState) (m : Msg) : DetState :=
  if s.cur.isEmpty then { s with cur := [m] }
  else if shouldSplit s.cur m && decide (5 ≤ s.cur.length) then
    { convs := s.convs ++ [s.cur], cur := [m] }
  else { s with cur := s.cur ++ [m] }

/-- The state after the whole loop has run. -/
def detFinal (messages : List Msg) : DetState :=
  messages.foldl detStep ⟨[], []⟩

/-- The `detect_conversation_boundaries_conservative`: run the loop, then flush
the final accumulator only if it holds at least 5 messages
(teste.py, lines 155-160; the empty-input early return coincides). -/
def detect_conversation_boundaries_conservative (messages : List Msg) : List (List Msg) :=
  if 5 ≤ (detFinal messages).cur.length then
    (detFinal messages).convs ++ [(detFinal messages).cur]
  else (detFinal messages).convs

/-! ## Overlap windower -/

/-- The `WhatsAppProcessor.create_overlapping_chunks` (teste.py, lines 162-177):
slices `messages[i : i+chunk_size]` for `i in range(0, len, chunk_size -
overlap)`, keeping only slices of at least 5 messages. -/
def create_overlapping_chunks (messages : List Msg) (chunk_size overlap : Nat) :
    List (List Msg) :=
  if messages.isEmpty then []
  else
    (((List.range ((messages.length + (chunk_size - overlap) - 1) / (chunk_size - overlap))).map
        (fun k => k * (chunk_size - overlap))).filterMap
      (fun i =>
        if 5 ≤ ((messages.drop i).take chunk_size).length then
          some ((messages.drop i).take chunk_size)
        else none))

/-! ## Keyword extractor -/

/-- The stopword set of `WhatsAppProcessor.extract_keywords`
(teste.py, lines 88-97), verbatim (the literal repeats two entries; set
membership is unaffected). -/
def stopwords : List String :=
  ["de", "a", "o", "que", "e", "do", "da", "em", "um", "para", "é", "com", "não",
   "uma", "os", "no", "se", "na", "por", "mais", "as", "dos", "como", "mas", "foi",
   "ao", "ele", "das", "tem", "à", "seu", "sua", "ou", "ser", "quando", "muito",
   "nos", "já", "eu", "também", "só", "pelo", "pela", "até", "isso", "ela",
   "entre", "era", "depois", "sem", "mesmo", "aos", "ter", "seus", "suas",
   "você", "vocês", "meu", "minha", "nosso", "nossa", "dele", "dela",
   "vou", "vai", "vamos", "então", "aqui", "lá", "onde", "porque", "ainda",
   "bem", "só", "sim", "não", "né", "ok", "kkk", "kkkk", "rs", "rsrs"]

/-- The `re.findall(r'\b\w+\b', text)`: the maximal runs of word characters, in
order.  The accumulator carries the current run reversed. -/
def tokenizeAux : List Char → List Char → List String
  | currun, [] => if currun = [] then [] else [String.mk currun.reverse]
  | currun, c :: rest =>
    if isWordChar c then tokenizeAux (c :: currun) rest
    else if currun = [] then tokenizeAux [] rest
    else String.mk currun.reverse :: tokenizeAux [] rest

def tokenize (cs : List Char) : List String :=
  tokenizeAux [] cs

/-- The `word_count[word] += 1` on an insertion-ordered association list
(Python dicts preserve insertion order). -/
def bump : List (String × Nat) → String → List (String × Nat)
  | [], w => [(w, 1)]
  | (k, c) :: rest, w =>
    if k = w then (k, c + 1) :: rest else (k, c) :: bump rest w

/-- Stable descending insertion by count: an element is placed after every
earlier element of greater-or-equal count, which is exactly Python's stable
`sorted(keys, key=word_count.get, reverse=True)`. -/
def insertByCount (x : String × Nat) : List (String × Nat) → List (String × Nat)
  | [] => [x]
  | y :: ys => if x.2 ≤ y.2 then y :: insertByCount x ys else x :: y :: ys

def sortByCountDesc (l : List (String × Nat)) : List (String × Nat) :=
  l.foldl (fun acc x => insertByCount x acc) []

/-- The `WhatsAppProcessor.extract_keywords` (teste.py, lines 82-106): tokenize
the lowercased text, count tokens longer than 2 characters that are not
stopwords, and return the keys sorted by descending count. -/
def extract_keywords (text : String) : List String :=
  let words := tokenize (text.toList.map pyLower)
  let word_count := words.foldl
    (fun acc word => if 2 < word.length ∧ word ∉ stopwords then bump acc word else acc) []
  (sortByCountDesc word_count).map Prod.fst

/-! ## System-message classifier and the two normalizer filters -/

/-- The `WhatsAppProcessor.system_messages` (teste.py, lines 21-28), verbatim. -/
def system_messages : List String :=
  ["mensagem apagada", "media omitted", "audio omitted", "image omitted",
   "document omitted", "video omitted", "sticker omitted", "gif omitted",
   "contact card omitted", "location omitted", "você foi adicionado",
   "saiu", "entrou no grupo", "mudou o assunto", "mudou a descrição",
   "criou o grupo", "removeu", "adicionado", "chamada de voz",
   "chamada de vídeo", "perdida", "ocupado", "rejeitada"]

/-- The `re.match(r'^\s*\[.*\]\s*$', s)`: optional whitespace, `[`, a run
without newline, `]`, optional whitespace to the end. -/
def bracketMatch (cs : List Char) : Bool :=
  match cs.dropWhile isPyWs with
  | '[' :: rest =>
    match rest.reverse.dropWhile isPyWs with
    | ']' :: midRev => !midRev.contains '\n'
    | _ => false
  | _ => false

/-- The `re.match(r'^chamada (perdida|rejeitada)$', s)` (on the already stripped
classifier input, where the trailing-newline subtlety of `$` cannot arise). -/
def chamadaMatch (cs : List Char) : Bool :=
  cs = "chamada perdida".toList || cs = "chamada rejeitada".toList

/-- The `re.match(r'^você foi adicionado$', s)`. -/
def voceMatch (cs : List Char) : Bool :=
  cs = "você foi adicionado".toList

/-- The `re.match(r'^.* saiu$', s)`: ends with `" saiu"` and the part matched by
`.*` contains no newline. -/
def saiuMatch (cs : List Char) : Bool :=
  " saiu".toList.isSuffixOf cs && !(cs.take (cs.length - 5)).contains '\n'

/-- Substring test (Python's `in` on strings). -/
def containsSub (pat : List Char) : List Char → Bool
  | [] => pat.isPrefixOf ([] : List Char)
  | c :: rest => pat.isPrefixOf (c :: rest) || containsSub pat rest

/-- After an occurrence of `" mudou "`, is there a later `"para"`? -/
def mudouAfter : List Char → Bool
  | [] => false
  | c :: rest =>
    if " mudou ".toList.isPrefixOf (c :: rest) then
      containsSub "para".toList ((c :: rest).drop 7) || mudouAfter rest
    else mudouAfter rest

/-- The `re.match(r'^.* mudou .*para.*$', s)`: since each `.*` excludes
newlines and together they cover the rest of the string, this is: no newline
anywhere, and some `" mudou "` followed (at distance ≥ 7) by `"para"`. -/
def mudouMatch (cs : List Char) : Bool :=
  !cs.contains '\n' && mudouAfter cs

/-- The `WhatsAppProcessor.is_system_message` (teste.py, lines 196-221). -/
def is_system_message (message : String) : Bool :=
  if message = "" || (pyStrip message.toList).length < 2 then true
  else
    let message_lower := pyStrip (message.toList.map pyLower)
    if system_messages.any
        (fun sys_msg => message_lower = sys_msg.toList
          || sys_msg.toList.isPrefixOf message_lower) then true
    else
      bracketMatch message_lower || chamadaMatch message_lower || voceMatch message_lower
        || saiuMatch message_lower || mudouMatch message_lower

/-- The per-message keep decision of the filtering stage of
`create_whatsapp_database` (teste.py, lines 270-291): strip the raw text,
drop it when empty (minimum length 1) or classified as a system message. -/
def teste_keeps (raw : String) : Bool :=
  !((pyStripStr raw).length < 1) && !is_system_message (pyStripStr raw)

/-- The system-message phrase list of `preprocess_whatsapp_data`
(rag.py, lines 57-64), verbatim. -/
def rag_system_messages : List String :=
  ["mensagem apagada", "media omitted", "audio omitted", "image omitted",
   "document omitted", "video omitted"]

/-- The per-message keep decision of `preprocess_whatsapp_data`
(rag.py, lines 48-67): strip, drop when shorter than 3 characters, drop when
any phrase of the list occurs as a substring of the lowercased text. -/
def rag_keeps (raw : String) : Bool :=
  !((pyStripStr raw).length < 3)
    && !(rag_system_messages.any
          (fun sys_msg => containsSub sys_msg.toList ((pyStripStr raw).toList.map pyLower)))

/-! ## Batched submission to the vector store

The batch loop shared by `create_whatsapp_database` (teste.py, lines
432-459) and `create_vector_database_with_logging` (app.py, lines 213-239):
the first batch goes through the store's creation call (`Chroma.from_documents`,
whose failure aborts the run), every later batch through the append call
(`add_documents`) inside `try/except`, so a failed later batch is logged and
skipped.  The external store is modelled by a failure oracle `fails : Nat →
Bool` telling which batch call raises; the observable outcome is the list of
documents that reached the store plus the number of logged batch failures. -/

def create_database_batches {α : Type} (documents : List α) (batch_size : Nat)
    (fails : Nat → Bool) : Option (List α × Nat) :=
  if fails 0 then none
  else
    some ((((List.range ((documents.length + batch_size - 1) / batch_size - 1)).map (· + 1)).foldl
      (fun acc batch_num =>
        if fails batch_num then (acc.1, acc.2 + 1)
        else (acc.1 ++ (documents.drop (batch_num * batch_size)).take batch_size, acc.2))
      (documents.take batch_size, 0)))

/-! ## Participants metadata

Both document builders compute `participants = list(set(authors))` and join
with `", "` (teste.py, lines 330 and 358; rag.py, lines 79-80).  CPython
enumerates a `set` of strings in hash order, which is salted per process:
the only guarantee is a duplicate-free list with the same members.  The
enumeration is therefore a parameter constrained by that contract. -/

/-- The guaranteed contract of Python's `list(set(xs))`. -/
def SetEnumOK (enum : List String → List String) : Prop :=
  ∀ xs, (enum xs).Nodup ∧ (∀ a, a ∈ enum xs ↔ a ∈ xs)

/-- The joined author list `', '.join(list(set([msg['author'] for msg in conversation])))`. -/
def participants_metadata (enum : List String → List String)
    (conversation : List Msg) : String :=
  String.intercalate ", " (enum (conversation.map Msg.author))

/-- Deduplication keeping the first occurrence of each author, in order:
the order the claim asserts. -/
def dedup_first_seen (xs : List String) : List String :=
  xs.foldl (fun acc x => if x ∈ acc then acc else acc ++ [x]) []

/-- A set enumeration CPython is permitted to produce that is not in
first-seen order. -/
def revEnum (xs : List String) : List String :=
  xs.dedup.reverse

/-! ## Concrete inputs used by witnesses and counterexamples -/

def wMsgA : Msg := ⟨"A", "", "01/01/2023, 10:00"⟩

def wMsgB : Msg := ⟨"B", "", "05/01/2023, 10:00"⟩

def demoMsg : Msg := ⟨"a", "m", "t"⟩

/-! ## Helper lemmas about the boundary detector -/

/-- One detector step appends the incoming message to the flattened state. -/
lemma detStep_join (s : DetState) (m : Msg) :
    (detStep s m).convs.flatten ++ (detStep s m).cur = s.convs.flatten ++ (s.cur ++ [m]) := by
  unfold detStep
  split
  · next h =>
    have : s.cur = [] := by simpa using h
    simp [this]
  · split
    · simp
    · simp

/-- Running the loop appends the consumed messages to the flattened state. -/
lemma detRun_join (messages : List Msg) :
    ∀ s : DetState,
      (messages.foldl detStep s).convs.flatten ++ (messages.foldl detStep s).cur
        = s.convs.flatten ++ (s.cur ++ messages) := by
  induction messages with
  | nil => intro s; simp
  | cons m ms ih =>
    intro s
    simp only [List.foldl_cons]
    rw [ih (detStep s m), ← List.append_assoc, detStep_join]
    simp

/-- A detector step only ever emits a segment of at least 5 messages. -/
lemma detStep_min (s : DetState) (m : Msg)
    (h : ∀ seg ∈ s.convs, 5 ≤ seg.length) :
    ∀ seg ∈ (detStep s m).convs, 5 ≤ seg.length := by
  unfold detStep
  split
  · exact h
  · split
    · next hc =>
      intro seg hseg
      simp only [List.mem_append, List.mem_singleton] at hseg
      rcases hseg with hseg | hseg
      · exact h seg hseg
      · subst hseg
        exact of_decide_eq_true ((Bool.and_eq_true _ _).mp hc).2
    · exact h

lemma detRun_min (messages : List Msg) :
    ∀ s : DetState, (∀ seg ∈ s.convs, 5 ≤ seg.length) →
      ∀ seg ∈ (messages.foldl detStep s).convs, 5 ≤ seg.length := by
  induction messages with
  | nil => intro s h; exact h
  | cons m ms ih => intro s h; exact ih _ (detStep_min s m h)

/-- The detector output, concatenated, is the input minus a trailing
remainder of fewer than 5 messages, and every segment has at least 5. -/
lemma det_decomp (messages : List Msg) :
    ∃ rem : List Msg,
      (detect_conversation_boundaries_conservative messages).flatten ++ rem = messages ∧
      rem.length < 5 ∧
      ∀ seg ∈ detect_conversation_boundaries_conservative messages, 5 ≤ seg.length := by
  have hjoin := detRun_join messages ⟨[], []⟩
  simp at hjoin
  have hmin := detRun_min messages ⟨[], []⟩ (by intro seg hseg; simp at hseg)
  unfold detect_conversation_boundaries_conservative detFinal
  by_cases h5 : 5 ≤ (messages.foldl detStep ⟨[], []⟩).cur.length
  · refine ⟨[], ?_, by simp, ?_⟩
    · rw [if_pos h5]
      simpa using hjoin
    · rw [if_pos h5]
      intro seg hseg
      simp only [List.mem_append, List.mem_singleton] at hseg
      rcases hseg with hseg | hseg
      · exact hmin seg hseg
      · subst hseg; exact h5
  · refine ⟨(messages.foldl detStep ⟨[], []⟩).cur, ?_, by omega, ?_⟩
    · rw [if_neg h5]
      exact hjoin
    · rw [if_neg h5]
      exact hmin

/-! ## C1 -/

/-- C1: for every accumulator state and incoming message, the conservative
boundary detector's split decision is true exactly when (1) both the
incoming and the previous (last accumulated) message parse to a time and the
gap exceeds 24 hours, or (2) the accumulator holds more than 100 messages,
or (3) the distinct authors of the last 20 accumulated messages number more
than 2 and the incoming author is not among them. -/
theorem C1_split_criteria (cur : List Msg) (m : Msg) (hne : cur ≠ []) :
    shouldSplit cur m = true ↔
      ((∃ ct lt : DateTime,
          parse_timestamp m.timestamp = some ct ∧
          parse_timestamp ((cur.getLast hne).timestamp) = some lt ∧
          (24 * 3600 * 1000000 : Int) < (toUs ct : Int) - (toUs lt : Int))
        ∨ 100 < cur.length
        ∨ (2 < ((cur.drop (cur.length - 20)).map Msg.author).toFinset.card
            ∧ m.author ∉ ((cur.drop (cur.length - 20)).map Msg.author).toFinset)) := by
  cases hc : parse_timestamp m.timestamp with
  | none =>
    simp [shouldSplit, List.getLast?_eq_getLast cur hne, hc,
      List.card_toFinset, List.mem_toFinset]
  | some ct =>
    cases hl : parse_timestamp ((cur.getLast hne).timestamp) with
    | none =>
      simp [shouldSplit, List.getLast?_eq_getLast cur hne, hc, hl,
        List.card_toFinset, List.mem_toFinset]
    | some lt =>
      simp [shouldSplit, List.getLast?_eq_getLast cur hne, hc, hl,
        List.card_toFinset, List.mem_toFinset,
        show (24 * 3600 * 1000000 : Int) = 86400000000 by norm_num, or_assoc]

theorem C1_witness : shouldSplit (List.replicate 101 wMsgA) wMsgB = true := by
  apply (C1_split_criteria (List.replicate 101 wMsgA) wMsgB (by simp)).mpr
  exact Or.inr (Or.inl (by simp))

/-! ## C2 -/

/-- C2: a forced split is honored only when the accumulator holds at least
5 messages — otherwise the incoming message is appended and accumulation
continues; on an honored split the closed segment is emitted and the new
accumulator holds exactly the triggering message; and at end of stream the
final accumulator is emitted when it holds at least 5 messages and discarded
otherwise. -/
theorem C2_split_honoring :
    (∀ (s : DetState) (m : Msg), s.cur ≠ [] → shouldSplit s.cur m = true →
        s.cur.length < 5 → detStep s m = ⟨s.convs, s.cur ++ [m]⟩)
    ∧ (∀ (s : DetState) (m : Msg), s.cur ≠ [] → shouldSplit s.cur m = true →
        5 ≤ s.cur.length → detStep s m = ⟨s.convs ++ [s.cur], [m]⟩)
    ∧ (∀ messages : List Msg,
        (5 ≤ (detFinal messages).cur.length →
          detect_conversation_boundaries_conservative messages
            = (detFinal messages).convs ++ [(detFinal messages).cur])
        ∧ ((detFinal messages).cur.length < 5 →
          detect_conversation_boundaries_conservative messages
            = (detFinal messages).convs)) := by
  refine ⟨?_, ?_, ?_⟩
  · intro s m hne hs h5
    have hemp : s.cur.isEmpty = false := by simpa using hne
    simp [detStep, hemp, hs, Nat.not_le.mpr h5]
  · intro s m hne hs h5
    have hemp : s.cur.isEmpty = false := by simpa using hne
    simp [detStep, hemp, hs, h5]
  · intro messages
    constructor
    · intro h5
      simp [detect_conversation_boundaries_conservative, h5]
    · intro h5
      simp [detect_conversation_boundaries_conservative, Nat.not_le.mpr h5]

theorem C2_witness :
    detStep ⟨[], List.replicate 101 wMsgA⟩ wMsgB = ⟨[List.replicate 101 wMsgA], [wMsgB]⟩
    ∧ detStep ⟨[], [wMsgA]⟩ wMsgB = ⟨[], [wMsgA] ++ [wMsgB]⟩
    ∧ detect_conversation_boundaries_conservative [wMsgA] = [] := by
  refine ⟨?_, ?_, ?_⟩
  · have h := C2_split_honoring.2.1 ⟨[], List.replicate 101 wMsgA⟩ wMsgB
      (by simp) (by decide) (by simp)
    simpa using h
  · exact C2_split_honoring.1 ⟨[], [wMsgA]⟩ wMsgB (by simp) (by decide) (by decide)
  · have h := (C2_split_honoring.2.2 [wMsgA]).2 (by decide)
    exact h.trans (by decide)

/-! ## C10 -/

/-- C10: concatenating the segments emitted by the conservative boundary
detector, in order, yields exactly the input list minus a trailing remainder
of fewer than 5 messages (possibly empty) — no interior message is dropped,
duplicated or reordered — and every emitted segment holds at least 5
messages. -/
theorem C10_concat_invariant (messages : List Msg) :
    ∃ rem : List Msg,
      (detect_conversation_boundaries_conservative messages).flatten ++ rem = messages ∧
      rem.length < 5 ∧
      ∀ seg ∈ detect_conversation_boundaries_conservative messages, 5 ≤ seg.length :=
  det_decomp messages

/-! ## C3 -/

/-- C3: every input message appears in at least one segment of the boundary
detector or in at least one window of the overlap windower (size 40, overlap
15), except for the messages of at most one trailing group of fewer than 5
messages. -/
theorem C3_coverage (messages : List Msg) :
    ∃ covered rem : List Msg,
      messages = covered ++ rem ∧ rem.length < 5 ∧
      ∀ m ∈ covered,
        (∃ seg ∈ detect_conversation_boundaries_conservative messages, m ∈ seg)
        ∨ (∃ w ∈ create_overlapping_chunks messages 40 15, m ∈ w) := by
  obtain ⟨rem, hj, hlen, -⟩ := det_decomp messages
  refine ⟨(detect_conversation_boundaries_conservative messages).flatten, rem,
    hj.symm, hlen, ?_⟩
  intro m hm
  exact Or.inl (List.mem_flatten.mp hm)

/-! ## C4 -/

/-- The length of a guarded `filterMap` is the count of indices passing the
guard. -/
lemma length_filterMap_guard {α β : Type} (g : α → β) (p : α → Prop) [DecidablePred p] :
    ∀ l : List α,
      (l.filterMap (fun a => if p a then some (g a) else none)).length
        = l.countP (fun a => decide (p a)) := by
  intro l
  induction l with
  | nil => rfl
  | cons a l ih =>
    by_cases h : p a <;>
      simp [List.filterMap_cons, h, List.countP_cons, ih]

lemma countP_range_le (b : Nat) :
    ∀ t : Nat, (List.range t).countP (fun k => decide (k ≤ b)) = min t (b + 1) := by
  intro t
  induction t with
  | zero => simp
  | succ t ih =>
    rw [List.range_succ, List.countP_append, ih]
    by_cases h : t ≤ b <;> simp [List.countP_cons, h] <;> omega

/-- The exact number of windows emitted by `create_overlapping_chunks` with
size 40 and overlap 15. -/
lemma chunks_length (messages : List Msg) :
    (create_overlapping_chunks messages 40 15).length
      = (messages.length - 4 + 24) / 25 := by
  cases messages with
  | nil => rfl
  | cons a as =>
    unfold create_overlapping_chunks
    rw [if_neg (by simp)]
    rw [List.filterMap_map]
    rw [show (40 - 15 : Nat) = 25 from rfl]
    set N := (a :: as).length with hN
    have hN1 : 1 ≤ N := by simp [hN]
    rw [show ((fun i => if 5 ≤ ((a :: as).drop i |>.take 40).length then
          some ((a :: as).drop i |>.take 40) else none) ∘ (fun k => k * 25))
        = (fun k => if 5 ≤ (((a :: as).drop (k * 25)).take 40).length then
          some (((a :: as).drop (k * 25)).take 40) else none) from rfl]
    rw [length_filterMap_guard (fun k => ((a :: as).drop (k * 25)).take 40)
      (fun k => 5 ≤ (((a :: as).drop (k * 25)).take 40).length)]
    by_cases h5 : 5 ≤ N
    · have hcong : ∀ k ∈ List.range ((N + 25 - 1) / 25),
          (decide (5 ≤ (((a :: as).drop (k * 25)).take 40).length) = true)
            ↔ (decide (k ≤ (N - 5) / 25) = true) := by
        intro k _
        simp only [decide_eq_true_eq]
        rw [List.length_take, List.length_drop, ← hN]
        rw [Nat.le_div_iff_mul_le (by norm_num : 0 < 25)]
        omega
      rw [List.countP_congr hcong, countP_range_le]
      have h1 : (N - 5) / 25 + 1 = (N + 20) / 25 := by
        rw [show N + 20 = N - 5 + 25 by omega]
        rw [Nat.add_div_right _ (by norm_num)]
      have h2 : (N + 20) / 25 ≤ (N + 25 - 1) / 25 :=
        Nat.div_le_div_right (by omega)
      rw [h1, min_eq_right h2]
      congr 1
      omega
    · have hzero : (List.range ((N + 25 - 1) / 25)).countP
          (fun k => decide (5 ≤ (((a :: as).drop (k * 25)).take 40).length)) = 0 := by
        apply List.countP_eq_zero.mpr
        intro k _
        simp only [decide_eq_true_eq, List.length_take, List.length_drop, ← hN]
        omega
      rw [hzero]
      omega

/-- C4 counterexample: on 30 messages the windower emits 2 windows while the
claimed formula `ceil(max(0, N - 15) / 25)` gives 1. -/
theorem C4_counterexample :
    ¬ ((create_overlapping_chunks (List.replicate 30 demoMsg) 40 15).length
        = (max 0 ((List.replicate 30 demoMsg).length - 15) + 24) / 25) := by
  decide

/-- C4 (amended): with size 40 and overlap 15 over N messages the windower
emits exactly `ceil(max(0, N - 4) / 25)` windows — one per cursor multiple
of 25 that lies at least 5 before the stream end, the clipped tail being
dropped when shorter than the minimum length 5; in particular N = 100
yields 4 windows. -/
theorem C4_window_count :
    (∀ messages : List Msg,
        (create_overlapping_chunks messages 40 15).length
          = (messages.length - 4 + 24) / 25)
    ∧ (∀ messages : List Msg, messages.length = 100 →
        (create_overlapping_chunks messages 40 15).length = 4) := by
  refine ⟨chunks_length, ?_⟩
  intro messages h
  rw [chunks_length, h]

theorem C4_witness :
    (create_overlapping_chunks (List.replicate 100 demoMsg) 40 15).length = 4 :=
  C4_window_count.2 (List.replicate 100 demoMsg) (by simp)

/-! ## C5 -/

/-- C5: the first batch initializes the store (its failure aborts the run),
every later batch is appended, and a later batch's failure is logged,
counted and skipped so the run completes without raising; in the concrete
scenario of 5 batches of 10 documents with the store failing on batch 3,
ingestion completes, 4 batches' worth (40) of documents reach the store, and
exactly 1 batch failure is recorded. -/
theorem C5_partial_failure_tolerance :
    (∀ (α : Type) (documents : List α) (batch_size : Nat) (fails : Nat → Bool),
        fails 0 = false → (create_database_batches documents batch_size fails).isSome = true)
    ∧ (∀ (α : Type) (documents : List α) (batch_size : Nat) (fails : Nat → Bool),
        fails 0 = true → create_database_batches documents batch_size fails = none)
    ∧ create_database_batches (List.range 50) 10 (fun n => n == 2)
        = some (((List.range 50).take 20) ++ ((List.range 50).drop 30), 1)
    ∧ (((List.range 50).take 20) ++ ((List.range 50).drop 30)).length = 40 := by
  refine ⟨?_, ?_, by decide, by decide⟩
  · intro α documents batch_size fails h
    simp [create_database_batches, h]
  · intro α documents batch_size fails h
    simp [create_database_batches, h]

theorem C5_witness :
    (create_database_batches ([] : List Nat) 10 (fun _ => false)).isSome = true
    ∧ create_database_batches ([] : List Nat) 10 (fun _ => true) = none :=
  ⟨C5_partial_failure_tolerance.1 Nat [] 10 (fun _ => false) rfl,
   C5_partial_failure_tolerance.2.1 Nat [] 10 (fun _ => true) rfl⟩

/-! ## C6 -/

/-- The `insertByCount` only rearranges: membership is preserved. -/
lemma mem_insertByCount {a x : String × Nat} :
    ∀ {l : List (String × Nat)}, a ∈ insertByCount x l → a = x ∨ a ∈ l := by
  intro l
  induction l with
  | nil => simp [insertByCount]
  | cons y ys ih =>
    simp only [insertByCount]
    split
    · intro h
      rcases List.mem_cons.mp h with h | h
      · exact Or.inr (List.mem_cons.mpr (Or.inl h))
      · rcases ih h with h | h
        · exact Or.inl h
        · exact Or.inr (List.mem_cons.mpr (Or.inr h))
    · intro h
      rcases List.mem_cons.mp h with h | h
      · exact Or.inl h
      · exact Or.inr h

lemma mem_sortByCountDesc_aux {a : String × Nat} :
    ∀ (l acc : List (String × Nat)),
      a ∈ l.foldl (fun acc x => insertByCount x acc) acc → a ∈ acc ∨ a ∈ l := by
  intro l
  induction l with
  | nil => intro acc h; exact Or.inl h
  | cons x xs ih =>
    intro acc h
    rcases ih (insertByCount x acc) h with h | h
    · rcases mem_insertByCount h with h | h
      · exact Or.inr (by simp [h])
      · exact Or.inl h
    · exact Or.inr (by simp [h])

/-- A key of `bump acc w` is `w` or a key of `acc`. -/
lemma mem_bump_key {p : String × Nat} (w : String) :
    ∀ acc : List (String × Nat), p ∈ bump acc w → p.1 = w ∨ p.1 ∈ acc.map Prod.fst := by
  intro acc
  induction acc with
  | nil =>
    intro h
    simp only [bump, List.mem_singleton] at h
    exact Or.inl (by rw [h])
  | cons q rest ih =>
    simp only [bump]
    split
    · intro h
      rcases List.mem_cons.mp h with h | h
      · next heq _ => exact Or.inl (by rw [h]; exact heq)
      · exact Or.inr (by simp; exact Or.inr ⟨p.2, by simpa using h⟩)
    · intro h
      rcases List.mem_cons.mp h with h | h
      · exact Or.inr (by simp [h])
      · rcases ih h with h | h
        · exact Or.inl h
        · exact Or.inr (by simp at h ⊢; tauto)

/-- Every key accumulated by the keyword-count fold is a long non-stopword. -/
lemma counts_keys :
    ∀ (ws : List String) (acc : List (String × Nat)),
      (∀ p ∈ acc, 2 < p.1.length ∧ p.1 ∉ stopwords) →
      ∀ p ∈ ws.foldl
        (fun acc word => if 2 < word.length ∧ word ∉ stopwords then bump acc word else acc) acc,
        2 < p.1.length ∧ p.1 ∉ stopwords := by
  intro ws
  induction ws with
  | nil => intro acc h; exact h
  | cons w ws ih =>
    intro acc hacc
    simp only [List.foldl_cons]
    by_cases hw : 2 < w.length ∧ w ∉ stopwords
    · rw [if_pos hw]
      apply ih
      intro p hp
      rcases mem_bump_key w acc hp with h | h
      · rw [h]; exact hw
      · obtain ⟨q, hq, hq1⟩ := List.mem_map.mp h
        rw [← hq1]; exact hacc q hq
    · rw [if_neg hw]
      exact ih acc hacc

/-- C6 counterexample: the input the claim asserts to yield an empty keyword
list actually yields `["tambem"]`, because the unaccented token `tambem` is
not in the stoplist (only the accented `também` is). -/
theorem C6_counterexample : extract_keywords "eu vou e ele tambem" ≠ [] := by
  decide

/-- C6 (amended): the keyword extractor excludes every stoplist token and
every token of length ≤ 2 from its result; the input
`"eu vou e ele tambem"` yields `["tambem"]` (the unaccented `tambem` is not
a stoplist entry), while the accented variant `"eu vou e ele também"`
consists only of stopwords and short tokens and yields the empty list. -/
theorem C6_keyword_exclusion :
    (∀ (text : String) (w : String),
        w ∈ extract_keywords text → 2 < w.length ∧ w ∉ stopwords)
    ∧ extract_keywords "eu vou e ele tambem" = ["tambem"]
    ∧ extract_keywords "eu vou e ele também" = [] := by
  refine ⟨?_, by decide, by decide⟩
  intro text w hw
  unfold extract_keywords at hw
  obtain ⟨p, hp, hp1⟩ := List.mem_map.mp hw
  rcases mem_sortByCountDesc_aux _ [] hp with h | h
  · simp at h
  · rw [← hp1]
    exact counts_keys _ [] (by intro p hp; simp at hp) p h

theorem C6_witness : 2 < "casa".length ∧ "casa" ∉ stopwords :=
  C6_keyword_exclusion.1 "casa casa" "casa" (by decide)

/-! ## C7 -/

/-- C7 counterexample: `"<Media omitted>"` is not classified as a system
message by `is_system_message` — the phrase list is matched only by equality
or prefix and the leading `<` defeats both, while the bracketed-notice
pattern requires square brackets — so the teste.py normalization keeps it. -/
theorem C7_counterexample :
    is_system_message "<Media omitted>" = false
    ∧ teste_keeps "<Media omitted>" = true := by
  exact ⟨by decide, by decide⟩

/-- C7 (amended): the teste.py normalization drops any message that, after
trimming and lowercasing, exactly equals or starts with a phrase in the
fixed system-message list or matches one of the system regex patterns;
`"mensagem apagada"` is dropped case-insensitively by both normalizers;
`"<Media omitted>"` matches neither the phrase list (equality/prefix) nor
the patterns and is kept by teste.py, though rag.py's substring filter drops
it; `"oi"` (length 2) is accepted by teste.py (minimum length 1) and dropped
by rag.py (minimum length 3). -/
theorem C7_system_filtering :
    (∀ raw : String,
        ((∃ sys_msg ∈ system_messages,
            pyStrip ((pyStripStr raw).toList.map pyLower) = sys_msg.toList ∨
            sys_msg.toList.isPrefixOf (pyStrip ((pyStripStr raw).toList.map pyLower)) = true)
          ∨ bracketMatch (pyStrip ((pyStripStr raw).toList.map pyLower)) = true
          ∨ chamadaMatch (pyStrip ((pyStripStr raw).toList.map pyLower)) = true
          ∨ voceMatch (pyStrip ((pyStripStr raw).toList.map pyLower)) = true
          ∨ saiuMatch (pyStrip ((pyStripStr raw).toList.map pyLower)) = true
          ∨ mudouMatch (pyStrip ((pyStripStr raw).toList.map pyLower)) = true) →
        teste_keeps raw = false)
    ∧ teste_keeps "MeNsAgEm ApAgAdA" = false
    ∧ rag_keeps "MeNsAgEm ApAgAdA" = false
    ∧ teste_keeps "oi" = true
    ∧ rag_keeps "oi" = false
    ∧ teste_keeps "<Media omitted>" = true
    ∧ rag_keeps "<Media omitted>" = false := by
  refine ⟨?_, by decide, by decide, by decide, by decide, by decide, by decide⟩
  intro raw h
  have hsys : is_system_message (pyStripStr raw) = true := by
    unfold is_system_message
    split
    · rfl
    · rcases h with ⟨p, hp, hcase⟩ | h | h | h | h | h
      · rw [if_pos]
        apply List.any_eq_true.mpr
        refine ⟨p, hp, ?_⟩
        rcases hcase with h | h
        · rw [decide_eq_true h, Bool.true_or]
        · rw [h, Bool.or_true]
      all_goals
        by_cases hany : system_messages.any
          (fun sys_msg => decide (pyStrip ((pyStripStr raw).toList.map pyLower) = sys_msg.toList)
            || sys_msg.toList.isPrefixOf (pyStrip ((pyStripStr raw).toList.map pyLower))) = true
      all_goals simp_all
  unfold teste_keeps
  rw [hsys]
  simp

theorem C7_witness : teste_keeps "mensagem apagada" = false :=
  C7_system_filtering.1 "mensagem apagada"
    (Or.inl ⟨"mensagem apagada", by decide, Or.inl (by decide)⟩)

/-! ## C8 -/

/-- C8: `"15/03/2023, 14:30"` parses to day 15, month 3, year 2023, hour 14,
minute 30; the 2-digit-year string `"15/03/23, 14:30"` parses to year 2023;
a string matched by no known format and no fallback pattern yields `none`
rather than an error; and the fallback reconstruction resolves 2-digit years
(< 100) to 2000+. -/
theorem C8_timestamp_parsing :
    parse_timestamp "15/03/2023, 14:30" = some ⟨2023, 3, 15, 14, 30, 0, 0⟩
    ∧ parse_timestamp "15/03/23, 14:30" = some ⟨2023, 3, 15, 14, 30, 0, 0⟩
    ∧ (∀ s : String, tryFormats (pyStrip s.toList) = none →
        (dateSearch s.toList = none ∨ timeSearch s.toList = none) →
        parse_timestamp s = none)
    ∧ (∀ d m y hh mm : Nat, y < 100 →
        fallback_from_match d m y hh mm = strpValidate ⟨y + 2000, m, d, hh, mm, 0, 0⟩) := by
  refine ⟨by decide, by decide, ?_, ?_⟩
  · intro s h1 h2
    unfold parse_timestamp
    split
    · rfl
    · rw [h1]
      rcases h2 with h2 | h2
      · rw [h2]
      · rw [h2]
        cases dateSearch s.toList <;> rfl
  · intro d m y hh mm hy
    unfold fallback_from_match
    rw [if_pos hy]

theorem C8_witness :
    parse_timestamp "hello" = none
    ∧ fallback_from_match 15 3 23 14 30 = strpValidate ⟨2023, 3, 15, 14, 30, 0, 0⟩ :=
  ⟨C8_timestamp_parsing.2.2.1 "hello" (by decide) (Or.inl (by decide)),
   C8_timestamp_parsing.2.2.2 15 3 23 14 30 (by decide)⟩

/-! ## C9 -/

/-- C9 counterexample: the code computes `list(set(authors))`, whose only
guaranteed contract is a duplicate-free enumeration of the distinct authors;
a contract-abiding enumeration (here the reversed one) yields `"b, a"` for
the authors `a, b`, not the first-seen order `"a, b"` — so first-seen order
does not follow from the code. -/
theorem C9_counterexample :
    ¬ (∀ enum : List String → List String, SetEnumOK enum →
        ∀ conversation : List Msg,
          participants_metadata enum conversation
            = String.intercalate ", " (dedup_first_seen (conversation.map Msg.author))) := by
  intro h
  have hok : SetEnumOK revEnum := by
    intro xs
    constructor
    · simpa [revEnum] using xs.nodup_dedup
    · intro a
      simp [revEnum]
  exact absurd (h revEnum hok [⟨"a", "", ""⟩, ⟨"b", "", ""⟩]) (by decide)

/-- C9 (amended): for every segment or window, the document builder's
`participants` field is the deduplicated set of author names in an
unspecified set-enumeration order (not necessarily first-seen), joined with
`", "`: whatever contract-abiding enumeration the runtime produces, the
joined list is duplicate-free and contains exactly the authors occurring in
the unit. -/
theorem C9_participants (enum : List String → List String) (henum : SetEnumOK enum)
    (conversation : List Msg) :
    participants_metadata enum conversation
        = String.intercalate ", " (enum (conversation.map Msg.author))
    ∧ (enum (conversation.map Msg.author)).Nodup
    ∧ (∀ a : String,
        a ∈ enum (conversation.map Msg.author) ↔ ∃ msg ∈ conversation, msg.author = a) := by
  refine ⟨rfl, (henum _).1, ?_⟩
  intro a
  rw [(henum _).2 a]
  simp

theorem C9_witness :
    participants_metadata List.dedup [⟨"a", "", ""⟩, ⟨"b", "", ""⟩]
        = String.intercalate ", " (List.dedup ["a", "b"])
    ∧ (List.dedup ["a", "b"]).Nodup := by
  have h := C9_participants List.dedup
    (fun xs => ⟨xs.nodup_dedup, fun a => List.mem_dedup⟩) [⟨"a", "", ""⟩, ⟨"b", "", ""⟩]
  exact ⟨h.1, h.2.1⟩
